import Mathlib

/-!
Verification development for the rootflow dataset-indexing layer
(`rootflow/datasets/base.py` and the two email dataset subclasses).

The Python classes are shallowly embedded: a dataset (RootflowDataset,
RootflowDatasetView, ConcatRootflowDatasetView) becomes an inductive tree,
read-time index resolution (`index`) becomes a total function returning
`Option` (Python `IndexError` on an out-of-range position becomes `none`),
and raising code returns `Except`.  Payload types are parameters `D`
(data) and `T` (target), matching Python's dynamic payloads.
-/

namespace Rootflow

/-- Python exceptions that the modelled code can raise. -/
inductive PyExc where
  | fileNotFound
  | typeError
  | keyError
  | indexError
  | attributeErrorView
  | attributeErrorConcat
deriving DecidableEq

/-- Embeds `RootflowDataItem.__slots__ = ("id", "data", "target")`.
`data` and `target` payloads are opaque values of types `D` and `T`. -/
structure RootflowDataItem (D T : Type) where
  id : Option String
  data : D
  target : T
deriving DecidableEq

/-- Modelled from the spec: `utils.map_functions` (the `utils` source file is
not under `src/`).  Per the spec, a transform pipeline is an ordered sequence
of functions "applied in registration order, each consuming the previous
function's output". -/
def map_functions {α : Type} (x : α) (fs : List (α → α)) : α :=
  fs.foldl (fun acc f => f acc) x

/-- First-occurrence deduplication, written with a `seen` accumulator so that
it is structurally recursive (and hence kernel-reducible). -/
def dedupByAux {α : Type} (eq : α → α → Bool) (seen : List α) : List α → List α
  | [] => []
  | x :: xs =>
    if seen.any (fun y => eq y x) then dedupByAux eq seen xs
    else x :: dedupByAux eq (x :: seen) xs

/-- First-occurrence deduplication of an index list. -/
def dedupFirst (l : List Nat) : List Nat :=
  dedupByAux (fun a b => a == b) [] l

/-- Modelled from the spec: `utils.get_unique` (the `utils` source file is not
under `src/`).  Per the spec (§4.5): if `ordered`, return the indices in
ascending sorted order with duplicates removed; otherwise in first-occurrence
order with duplicates removed. -/
def get_unique (indices : List Nat) (ordered : Bool) : List Nat :=
  if ordered then List.insertionSort (· ≤ ·) (dedupFirst indices)
  else dedupFirst indices

/-- Embeds the three dataset variants.

* `concrete` is `RootflowDataset`: a name (used for generated ids), the owned
  item sequence `self.data`, and the two transform pipelines.
* `view` is `RootflowDatasetView`: parent reference, the stored (already
  deduplicated) `data_indices`, and the view's own pipelines.
* `concat` is `ConcatRootflowDatasetView`: the two wrapped datasets, the
  `transition_point` captured at construction, and its own pipelines.

The Python `has_data_transforms` / `has_target_transforms` flags are not
carried: the flag is set exactly when the pipeline list is (possibly) nonempty
and `map_functions x [] = x`, so guarding the application by the flag is
equivalent to always applying the stored pipeline. -/
inductive FDataset (D T : Type) where
  | concrete (name : String) (data : List (RootflowDataItem D T))
      (dataTransforms : List (D → D)) (targetTransforms : List (T → T))
  | view (parent : FDataset D T) (dataIndices : List Nat)
      (dataTransforms : List (D → D)) (targetTransforms : List (T → T))
  | concat (datasetOne datasetTwo : FDataset D T) (transitionPoint : Nat)
      (dataTransforms : List (D → D)) (targetTransforms : List (T → T))

variable {D T : Type}

/-- Embeds `__len__` of each variant.  Note that the concatenated variant's
length is `len(self.dataset_one) + len(self.dataset_two)`, recomputed on
every call (the stored transition point is not consulted). -/
def flen : FDataset D T → Nat
  | .concrete _ data _ _ => data.length
  | .view _ idxs _ _ => idxs.length
  | .concat d1 d2 _ _ _ => flen d1 + flen d2

/-- The stored `transition_point` of a concatenated view (captured once at
construction, `len(datatset_one)` at that moment). -/
def transitionPoint : FDataset D T → Nat
  | .concat _ _ tp _ _ => tp
  | _ => 0

/-- The stored `data_indices` of a view. -/
def viewIndices : FDataset D T → List Nat
  | .view _ idxs _ _ => idxs
  | _ => []

/-- Embeds `RootflowDatasetView.__init__`: stores the parent and
`get_unique(view_indices, ordered=sorted)`, with fresh empty pipelines. -/
def mkView (parent : FDataset D T) (viewIndices : List Nat) (srt : Bool) :
    FDataset D T :=
  .view parent (get_unique viewIndices srt) [] []

/-- Embeds `ConcatRootflowDatasetView.__init__` (reached via `__add__`):
stores both datasets and `transition_point = len(datatset_one)`, with fresh
empty pipelines. -/
def mkConcat (d1 d2 : FDataset D T) : FDataset D T :=
  .concat d1 d2 (flen d1) [] []

/-- Embeds `index` of each variant, the read-time resolution algorithm.

* concrete: fetch `self.data[index]` (out of range ⇒ `none`, Python
  `IndexError`), substitute the generated id `f"{type(self).__name__}-{index}"`
  when `id is None`, then apply the two pipelines.
* view: resolve through `self.data_indices`, delegate to the parent, then
  apply the view's own pipelines on the parent's output.
* concat: dispatch on `index < self.transition_point` to the first dataset at
  `index` or the second at `index - transition_point`, then apply own
  pipelines. -/
def findex : FDataset D T → Nat → Option (String × D × T)
  | .concrete name data dt tt, i =>
    (data[i]?).map fun item =>
      (item.id.getD (name ++ "-" ++ toString i),
       map_functions item.data dt, map_functions item.target tt)
  | .view parent idxs dt tt, i =>
    match idxs[i]? with
    | none => none
    | some parentPos =>
      (findex parent parentPos).map fun r =>
        (r.1, map_functions r.2.1 dt, map_functions r.2.2 tt)
  | .concat d1 d2 tp dt tt, i =>
    (if i < tp then findex d1 i else findex d2 (i - tp)).map fun r =>
      (r.1, map_functions r.2.1 dt, map_functions r.2.2 tt)

/-- Embeds `map(function, targets=False)` on the data payloads.
`RootflowDataset.map` (the `batch_size=None` path) replaces each item's
payload in place with `function(payload)`; the two view variants raise an
`AttributeError` as their very first statement (messages: "Cannot map over a
dataset view!" and "Cannot map over concatenated datasets!"), so an error
result carries no mutated dataset and the wrapped storage is untouched. -/
def mapData (f : D → D) : FDataset D T → Except PyExc (FDataset D T)
  | .concrete name data dt tt =>
    .ok (.concrete name (data.map fun it => { it with data := f it.data }) dt tt)
  | .view _ _ _ _ => .error .attributeErrorView
  | .concat _ _ _ _ _ => .error .attributeErrorConcat

/-- Embeds `map(function, targets=True)`: same dispatch as `mapData`, the
concrete variant replacing each item's `target`. -/
def mapTargets (g : T → T) : FDataset D T → Except PyExc (FDataset D T)
  | .concrete name data dt tt =>
    .ok (.concrete name (data.map fun it => { it with target := g it.target }) dt tt)
  | .view _ _ _ _ => .error .attributeErrorView
  | .concat _ _ _ _ _ => .error .attributeErrorConcat

/-- Models the in-place growth of a Concrete Dataset's item sequence
(`self.data += new` on the wrapped `RootflowDataset`).  Non-concrete
variants own no storage and are unchanged. -/
def growConcrete : FDataset D T → List (RootflowDataItem D T) → FDataset D T
  | .concrete name data dt tt, new => .concrete name (data ++ new) dt tt
  | d, _ => d

/-- A concatenated view after the Concrete Dataset it wraps first has grown:
the node still references the (now longer) first dataset, while its stored
`transition_point` is whatever was captured at construction. -/
def growFirst : FDataset D T → List (RootflowDataItem D T) → FDataset D T
  | .concat d1 d2 tp dt tt, new => .concat (growConcrete d1 new) d2 tp dt tt
  | d, _ => d

/-! ### Python slice semantics

`FunctionalDataset.__getitem__` evaluates `list(range(len(self))[index])` for
a slice argument.  The following definitions model CPython's
`PySlice_AdjustIndices` for `range(n)[start:stop:step]` (standard-library
behaviour, embedded here because the repository code calls it). -/

/-- The effective step: `1` when the slice's step is omitted. -/
def pySliceStep (ste : Option Int) : Int := ste.getD 1

/-- Lower clamp bound: `-1` for a negative step, else `0`. -/
def pySliceLower (s : Int) : Int := if s < 0 then -1 else 0

/-- Upper clamp bound: `n - 1` for a negative step, else `n`. -/
def pySliceUpper (n : Nat) (s : Int) : Int :=
  if s < 0 then (n : Int) - 1 else (n : Int)

/-- Clamp an explicit slice endpoint: negative endpoints are offset by `n`
once, then the result is clamped into `[lower, upper]`. -/
def pyClamp (lower upper : Int) (n : Nat) (v : Int) : Int :=
  let w := if v < 0 then v + n else v
  if w < lower then lower else if w > upper then upper else w

/-- The effective start position of a slice over `range(n)`. -/
def pySliceStart (n : Nat) (st : Option Int) (s : Int) : Int :=
  match st with
  | none => if s < 0 then pySliceUpper n s else pySliceLower s
  | some v => pyClamp (pySliceLower s) (pySliceUpper n s) n v

/-- The effective stop position of a slice over `range(n)`. -/
def pySliceStop (n : Nat) (sp : Option Int) (s : Int) : Int :=
  match sp with
  | none => if s < 0 then pySliceLower s else pySliceUpper n s
  | some v => pyClamp (pySliceLower s) (pySliceUpper n s) n v

/-- The number of elements of `range(n)[start:stop:step]` (CPython's length
formula; operands are nonnegative in both branches, so Lean's truncating `Int`
division agrees with C's). -/
def pySliceLength (start stop s : Int) : Nat :=
  if 0 < s then
    (if start < stop then ((stop - start - 1) / s + 1).toNat else 0)
  else
    (if stop < start then ((start - stop - 1) / (-s) + 1).toNat else 0)

/-- The elements of `range(n)[start:stop:step]`, in slice traversal order. -/
def pySliceIndices (n : Nat) (st sp ste : Option Int) : List Int :=
  (List.range
      (pySliceLength (pySliceStart n st (pySliceStep ste))
        (pySliceStop n sp (pySliceStep ste)) (pySliceStep ste))).map
    fun (i : Nat) =>
      pySliceStart n st (pySliceStep ste) + (i : Int) * pySliceStep ste

/-- Embeds the slice branch of `__getitem__`:
`RootflowDatasetView(self, list(range(len(self))[index]), sorted=False)` —
note the `sorted=False`. -/
def getitemSlice (d : FDataset D T) (st sp ste : Option Int) : FDataset D T :=
  mkView d ((pySliceIndices (flen d) st sp ste).map Int.toNat) false

/-- The argument of `__getitem__`, by Python runtime type.  Integer positions
are modelled as naturals (the claims under verification only involve
non-negative in-range positions); `other` stands for any argument that is
neither an `int`, a `slice`, nor a `tuple`/`list` of ints (e.g. a string). -/
inductive IndexArg where
  | int (i : Nat)
  | slice (st sp ste : Option Int)
  | intList (l : List Nat)
  | other

/-- What a `__getitem__` call produces. -/
inductive GetitemResult (D T : Type) where
  | item : Option (String × D × T) → GetitemResult D T
  | view : FDataset D T → GetitemResult D T
  | pyNone : GetitemResult D T

/-- Embeds `FunctionalDataset.__getitem__`.  The Python method is an
`if`/`elif`/`elif` chain with no `else`: an argument of any other type falls
off the end and the method returns `None` — it does not raise. -/
def pyGetitem (d : FDataset D T) : IndexArg → GetitemResult D T
  | .int i => .item (findex d i)
  | .slice st sp ste => .view (getitemSlice d st sp ste)
  | .intList l => .view (mkView d l true)
  | .other => .pyNone

/-! ### `split` -/

/-- Python `int()` truncation of a rational (floats are modelled as exact
rationals): toward zero. -/
def pyInt (q : ℚ) : Int := if q < 0 then ⌈q⌉ else ⌊q⌋

/-- Python `l[k:]` for an integer `k`: a negative `k` is offset by `len(l)`
and clamped at `0`. -/
def pySliceFrom {α : Type} (k : Int) (l : List α) : List α :=
  if k < 0 then l.drop ((l.length : Int) + k).toNat else l.drop k.toNat

/-- Python `l[:k]` for an integer `k`: a negative `k` is offset by `len(l)`
and clamped at `0`. -/
def pySliceTo {α : Type} (k : Int) (l : List α) : List α :=
  if k < 0 then l.take ((l.length : Int) + k).toNat else l.take k.toNat

/-- Embeds `FunctionalDataset.split(test_proportion, seed)`:

```
indices = list(range(len(self))); random.Random(seed).shuffle(indices)
n_test = int(len(self) * test_proportion)
return (View(self, indices[n_test:], sorted=False),
        View(self, indices[:n_test], sorted=False))
```

The stdlib `random.Random(seed).shuffle` is abstracted as the function
argument `shuffle` (already applied to the seed): it is a deterministic pure
function of the seed, and it permutes its input — the theorems take that
permutation property as a hypothesis.  The returned pair is
`(train view, test view)`. -/
def splitDataset (shuffle : List Nat → List Nat) (p : ℚ) (d : FDataset D T) :
    FDataset D T × FDataset D T :=
  let indices := shuffle (List.range (flen d))
  let nTest := pyInt ((flen d : ℚ) * p)
  (mkView d (pySliceFrom nTest indices) false,
   mkView d (pySliceTo nTest indices) false)

/-! ### Targets and task-shape inference

`RootflowDataset.task_shapes` dispatches on the Python runtime type of the
first item's (transformed) target.  `PyTarget` models the relevant Python
value universe: mappings, non-string sequences, strings, ints, floats
(values as exact rationals), array-likes (torch tensors / numpy arrays,
carrying their shape tuple), and `None` / anything else. -/

inductive PyTarget where
  | mapping (kvs : List (String × PyTarget))
  | seq (l : List PyTarget)
  | str (s : String)
  | int (i : Int)
  | float (q : ℚ)
  | arr (dims : List Nat)
  | noneV

mutual

/-- Structural equality of Python target values (models `==`/set membership
used by the distinct-count scans). -/
def pyTargetBeq : PyTarget → PyTarget → Bool
  | .mapping a, .mapping b => pyTargetListPairBeq a b
  | .seq a, .seq b => pyTargetListBeq a b
  | .str a, .str b => a == b
  | .int a, .int b => a == b
  | .float a, .float b => a == b
  | .arr a, .arr b => a == b
  | .noneV, .noneV => true
  | _, _ => false

/-- Elementwise equality of target lists. -/
def pyTargetListBeq : List PyTarget → List PyTarget → Bool
  | [], [] => true
  | x :: xs, y :: ys => pyTargetBeq x y && pyTargetListBeq xs ys
  | _, _ => false

/-- Elementwise equality of key/target pair lists. -/
def pyTargetListPairBeq :
    List (String × PyTarget) → List (String × PyTarget) → Bool
  | [], [] => true
  | (k1, v1) :: xs, (k2, v2) :: ys =>
    k1 == k2 && pyTargetBeq v1 v2 && pyTargetListPairBeq xs ys
  | _, _ => false

end

/-- The values `RootflowDataset._task_shapes` can hold: an int (a distinct
count, a sequence length, or `1` for a float target), an array shape tuple, a
per-task dict, or Python `None` (both the initial value of the memoization
field and the "no shape" sentinel — the two are indistinguishable at
runtime). -/
inductive ShapeVal where
  | int (n : Nat)
  | shape (dims : List Nat)
  | dict (m : List (String × ShapeVal))
  | noneV

/-- Python truthiness of a `_task_shapes` value: `None`, `0`, an empty tuple
and an empty dict are falsy. -/
def shapeTruthy : ShapeVal → Bool
  | .int n => n != 0
  | .shape dims => !dims.isEmpty
  | .dict m => !m.isEmpty
  | .noneV => false

/-- `target[key]` on a Python value: `KeyError` when the key is missing,
`TypeError` (modelled with the same error monad) when the value is not a
mapping. -/
def lookupKey (key : String) : PyTarget → Except PyExc PyTarget
  | .mapping kvs =>
    match kvs.find? (fun kv => kv.1 == key) with
    | some kv => .ok kv.2
    | none => .error .keyError
  | _ => .error .typeError

/-- Count of distinct values in a list (Python `len({...})`). -/
def distinctCount (l : List PyTarget) : Nat :=
  (dedupByAux pyTargetBeq [] l).length

mutual

/-- Modelled from the spec: `utils.get_target_shape` (the `utils` source file
is not under `src/`).  Per the spec it "recursively classif[ies] the value's
structural shape": a non-string sequence reports its length, an array-like
its dimension tuple, a float a scalar shape, a mapping the per-key
classification, anything else the "no shape" sentinel. -/
def get_target_shape : PyTarget → ShapeVal
  | .mapping kvs => .dict (getTargetShapePairs kvs)
  | .seq l => .int l.length
  | .arr dims => .shape dims
  | .float _ => .int 1
  | _ => .noneV

/-- Per-key recursive classification for mapping targets. -/
def getTargetShapePairs :
    List (String × PyTarget) → List (String × ShapeVal)
  | [] => []
  | (k, v) :: kvs => (k, get_target_shape v) :: getTargetShapePairs kvs

end

/-- Embeds the dispatch body of `RootflowDataset.task_shapes` on the first
item's target; `targets` is the full (read-time, transformed) target
sequence of the dataset, scanned by the distinct-count branches.  The
`isinstance` chain is, in source order: `Mapping`; `Sequence` that is not
`str`; tensor/ndarray; `int`; `float`; else `None`. -/
def taskShapesDispatch (t : PyTarget) (targets : List PyTarget) :
    Except PyExc ShapeVal :=
  match t with
  | .mapping kvs => do
    let pairs ← kvs.mapM fun kv =>
      match kv.2 with
      | .int _ => do
        let vals ← targets.mapM (lookupKey kv.1)
        pure (kv.1, ShapeVal.int (distinctCount vals))
      | v => pure (kv.1, get_target_shape v)
    pure (.dict pairs)
  | .seq l => pure (.int l.length)
  | .str _ => pure .noneV
  | .int _ => pure (.int (distinctCount targets))
  | .float _ => pure (.int 1)
  | .arr dims => pure (.shape dims)
  | .noneV => pure .noneV

/-- One call of `RootflowDataset.task_shapes()` against memoization state
`cache` (the current `self._task_shapes`, initially Python `None` =
`ShapeVal.noneV`) and the dataset's read-time target sequence `targets`.
The guard is `if self._task_shapes:` — Python truthiness, not an
`is not None` check.  The example target is `self.index(0)[2]`, raising
`IndexError` on an empty dataset.  Returns the value handed to the caller
together with the new memoization state. -/
def taskShapesCall (cache : ShapeVal) (targets : List PyTarget) :
    Except PyExc (ShapeVal × ShapeVal) :=
  if shapeTruthy cache then .ok (cache, cache)
  else
    match targets.head? with
    | none => .error .indexError
    | some t => (taskShapesDispatch t targets).map fun s => (s, s)

/-- The read-time target sequence of a dataset (what
`[item["target"] for item in self]` yields). -/
def readTargets (d : FDataset D T) : List T :=
  (List.range (flen d)).filterMap fun i => (findex d i).map fun r => r.2.2

/-! ### `RootflowDataset.__init__` construction protocol -/

/-- Observable steps of the construction protocol, recorded in order. -/
inductive InitAction where
  | tryLoad
  | makeRoot
  | runDownload
deriving DecidableEq

/-- The environment a construction runs against: whether the root location
already exists, and what `self.prepare_data(root)` produces before
(`prepare1`) and after (`prepare2`) the download step. -/
structure InitEnv (I : Type) where
  rootExists : Bool
  prepare1 : Except PyExc I
  prepare2 : Except PyExc I

/-- Embeds the body of `RootflowDataset.__init__` (the load/download
protocol): try `prepare_data`; on `FileNotFoundError`, if `download` is
truthy, create the root directory when absent, run `self.download(root)`,
and retry `prepare_data` exactly once (whatever it raises now propagates);
if `download` is falsy, re-raise.  Any non-`FileNotFoundError` from the
first load propagates uncaught.  Returns the loaded result and the ordered
action trace. -/
def rootflowDatasetInit {I : Type} (env : InitEnv I) (download : Bool) :
    Except PyExc I × List InitAction :=
  match env.prepare1 with
  | .ok d => (.ok d, [.tryLoad])
  | .error .fileNotFound =>
    if download then
      (env.prepare2,
       [.tryLoad] ++ (if env.rootExists then [] else [.makeRoot])
         ++ [.runDownload, .tryLoad])
    else (.error .fileNotFound, [.tryLoad])
  | .error e => (.error e, [.tryLoad])

/-- `RootflowDataset.__init__(self, root=None, download=True)` accepts two
positional arguments after `self`. -/
def ROOTFLOW_INIT_POSITIONAL_PARAMS : Nat := 2

/-- A positional call `super().__init__(arg1, ..., argk)` into
`RootflowDataset.__init__`: Python raises `TypeError` at call time — before
the callee body (and hence any load or download) runs — when more positional
arguments are passed than the signature accepts. -/
def callRootflowInit {I : Type} (numArgs : Nat) (env : InitEnv I)
    (download : Bool) : Except PyExc I × List InitAction :=
  if ROOTFLOW_INIT_POSITIONAL_PARAMS < numArgs then (.error .typeError, [])
  else rootflowDatasetInit env download

/-- `EmailCorpus.__init__` calls `super().__init__(root, download, tasks)`:
three positional arguments. -/
def emailCorpusSuperArgCount : Nat := 3

/-- `LabeledEmails.__init__` calls `super().__init__(root, download, tasks)`:
three positional arguments. -/
def labeledEmailsSuperArgCount : Nat := 3

/-- Constructing an `EmailCorpus`: after setting two attributes, the first
effectful step is the `super().__init__` call. -/
def emailCorpusConstruct {I : Type} (env : InitEnv I) (download : Bool) :
    Except PyExc I × List InitAction :=
  callRootflowInit emailCorpusSuperArgCount env download

/-- Constructing a `LabeledEmails`: after setting `self.prefix`, the first
effectful step is the `super().__init__` call. -/
def labeledEmailsConstruct {I : Type} (env : InitEnv I) (download : Bool) :
    Except PyExc I × List InitAction :=
  callRootflowInit labeledEmailsSuperArgCount env download

/-! ### The two collaborators' `prepare_data` -/

/-- A decoded row of the labeled-emails zarr store:
`id ++ mbox ++ label ++ oracle_id ++ dataset_id` (already split on the data
delimiter; the string-splitting itself is stdlib behaviour). -/
structure EmailRow where
  id : String
  mbox : String
  label : String
  oracle_id : String
  dataset_id : String

/-- `LabeledEmails.LABEL_ENCODING[label]`: the dict
`{"False": 0, "True": 1}`; any other key raises `KeyError`. -/
def LABEL_ENCODING (label : String) : Except PyExc Nat :=
  if label == "False" then .ok 0
  else if label == "True" then .ok 1
  else .error .keyError

/-- The parse loop of `LabeledEmails.prepare_data`: rows with an empty label
are skipped; otherwise the item has `data = {"mbox": mbox, "oracle_id":
oracle_id}` (modelled as the pair), `id = id`, and the encoded label as
target. -/
def labeledParseRows :
    List EmailRow → Except PyExc (List (RootflowDataItem (String × String) Nat))
  | [] => .ok []
  | r :: rs =>
    if r.label == "" then labeledParseRows rs
    else do
      let t ← LABEL_ENCODING r.label
      let rest ← labeledParseRows rs
      pure (⟨some r.id, (r.mbox, r.oracle_id), t⟩ :: rest)

/-- What a call of `LabeledEmails.prepare_data` produces when it returns
normally: either the parsed item list, or — in the missing-file branch — the
`FileNotFoundError` *class object itself*, since the code reads
`return FileNotFoundError` rather than `raise FileNotFoundError`. -/
inductive LabeledPrepResult where
  | items (l : List (RootflowDataItem (String × String) Nat))
  | fileNotFoundClass
deriving DecidableEq

/-- Embeds `LabeledEmails.prepare_data(directory)`: when `emails.zarr` exists
at the directory, parse its rows; when it does not, the function *returns*
the exception class (`return FileNotFoundError`) — a normal, non-raising
return. -/
def labeledEmailsPrepareData (fileExists : Bool) (rows : List EmailRow) :
    Except PyExc LabeledPrepResult :=
  if fileExists then (labeledParseRows rows).map .items
  else .ok .fileNotFoundClass

/-- Embeds `EmailCorpus.prepare_data(directory)`: each decoded row yields
`RootflowDataItem(mbox, id=id, target=None)` (rows modelled as the pair
`(id, mbox)`; fields past the second are unused); when `emails.zarr` does
not exist the method `raise`s `FileNotFoundError`. -/
def emailCorpusPrepareData (fileExists : Bool) (rows : List (String × String)) :
    Except PyExc (List (RootflowDataItem String (Option Nat))) :=
  if fileExists then
    .ok (rows.map fun r => ⟨some r.1, r.2, none⟩)
  else .error .fileNotFound

/-! ## Helper lemmas -/

theorem dedupByAux_natBeq_eq_self (l : List Nat) : ∀ (seen : List Nat),
    (∀ x ∈ l, x ∉ seen) → l.Nodup →
    dedupByAux (fun a b => a == b) seen l = l := by
  induction l with
  | nil => intro seen _ _; rfl
  | cons x xs ih =>
    intro seen hseen hnd
    have hx : ¬(seen.any fun y => y == x) = true := by
      simp only [List.any_eq_true, beq_iff_eq]
      rintro ⟨y, hy, rfl⟩
      exact hseen y (List.mem_cons_self y xs) hy
    rw [dedupByAux, if_neg hx]
    have hnd' := List.nodup_cons.mp hnd
    have : dedupByAux (fun a b => a == b) (x :: seen) xs = xs := by
      refine ih (x :: seen) ?_ hnd'.2
      intro y hy hmem
      rcases List.mem_cons.mp hmem with h | h
      · exact hnd'.1 (h ▸ hy)
      · exact hseen y (List.mem_cons_of_mem x hy) h
    rw [this]

theorem dedupFirst_eq_self {l : List Nat} (h : l.Nodup) : dedupFirst l = l :=
  dedupByAux_natBeq_eq_self l [] (by intro x _ hx; exact absurd hx (List.not_mem_nil x)) h

theorem viewIndices_mkView (d : FDataset D T) (idxs : List Nat) :
    viewIndices (mkView d idxs false) = dedupFirst idxs := by
  simp [mkView, get_unique, viewIndices]

/-! ## Sample data for witnesses and counterexamples -/

/-- Name of the sample parent dataset. -/
def nmP : String := "P"

/-- Name of the sample second dataset. -/
def nmB : String := "B"

/-- Sample id carried by the first sample item. -/
def idA : String := "a"

/-- A concrete dataset with one item, id `"a"`, data `10`, target `20`. -/
def sampleP : FDataset Nat Nat :=
  .concrete nmP [⟨some idA, 10, 20⟩] [] []

/-- A concrete dataset with two items. -/
def sampleA2 : FDataset Nat Nat :=
  .concrete nmP [⟨some idA, 10, 20⟩, ⟨Option.none, 11, 21⟩] [] []

/-- A concrete dataset with one item. -/
def sampleB1 : FDataset Nat Nat :=
  .concrete nmB [⟨Option.none, 30, 40⟩] [] []

/-- A concrete dataset with three items, for slice examples. -/
def sampleD3 : FDataset Nat Nat :=
  .concrete nmP
    [⟨Option.none, 0, 0⟩, ⟨Option.none, 1, 1⟩, ⟨Option.none, 2, 2⟩] [] []

/-! ## Claims -/

/-- C1.  For a View node over a parent dataset with (deduplicated) index
sequence `idxs` and its own pipelines `dt`/`tt`, at every in-range position
`i` for which the parent resolves `idxs[i]`, the View resolves position `i`
to the parent's output with the View's own pipelines applied on top — the
parent's pipeline (already inside `findex p`) runs first, then the wrapping
View's, for data and targets alike. -/
theorem view_index_composes (p : FDataset D T) (idxs : List Nat)
    (dt : List (D → D)) (tt : List (T → T)) (i : Nat) (h : i < idxs.length)
    (idv : String) (dv : D) (tv : T)
    (hp : findex p idxs[i] = some (idv, dv, tv)) :
    findex (FDataset.view p idxs dt tt) i
      = some (idv, map_functions dv dt, map_functions tv tt) := by
  simp [findex, List.getElem?_eq_getElem h, hp]

/-- Witness for C1 at a concrete input: a view over `sampleP` with index
list `[0]` and one data transform `(· + 1)`. -/
theorem view_index_composes_witness :
    findex (FDataset.view sampleP [0] [fun x => x + 1] []) 0
      = some (idA, 11, 20) := by
  have h := view_index_composes sampleP [0] [fun x => x + 1] [] 0
    (by decide) idA 10 20 (by rfl)
  simpa [map_functions] using h

/-- C3.  For the concatenation node built over `A` and `B` (transition point
`flen A`, own pipelines `dt`/`tt`): its length is `flen A + flen B`; below
the transition point it resolves through `A` at the same position, above it
through `B` at `i - flen A`, in both cases applying its own pipelines on
top. -/
theorem concat_index_spec (A B : FDataset D T) (dt : List (D → D))
    (tt : List (T → T)) :
    flen (FDataset.concat A B (flen A) dt tt) = flen A + flen B ∧
    (∀ i, i < flen A →
      findex (FDataset.concat A B (flen A) dt tt) i
        = (findex A i).map fun r =>
            (r.1, map_functions r.2.1 dt, map_functions r.2.2 tt)) ∧
    (∀ i, flen A ≤ i →
      findex (FDataset.concat A B (flen A) dt tt) i
        = (findex B (i - flen A)).map fun r =>
            (r.1, map_functions r.2.1 dt, map_functions r.2.2 tt)) := by
  refine ⟨rfl, ?_, ?_⟩
  · intro i hi
    simp [findex, hi]
  · intro i hi
    simp [findex, Nat.not_lt.mpr hi]

/-- Witness for C3 at concrete inputs: both sides of the transition point of
`sampleA2 ++ sampleB1`. -/
theorem concat_index_spec_witness :
    (0 < flen sampleA2) ∧ (flen sampleA2 ≤ 2) ∧
    findex (FDataset.concat sampleA2 sampleB1 (flen sampleA2) [] []) 0
      = (findex sampleA2 0).map (fun r =>
          (r.1, map_functions r.2.1 [], map_functions r.2.2 [])) ∧
    findex (FDataset.concat sampleA2 sampleB1 (flen sampleA2) [] []) 2
      = (findex sampleB1 (2 - flen sampleA2)).map (fun r =>
          (r.1, map_functions r.2.1 [], map_functions r.2.2 [])) :=
  ⟨by decide, by decide,
   (concat_index_spec sampleA2 sampleB1 [] []).2.1 0 (by decide),
   (concat_index_spec sampleA2 sampleB1 [] []).2.2 2 (by decide)⟩

/-- C4 counterexample.  The claim says `len` of a concatenated view is fixed
at construction and does not change when a wrapped Concrete Dataset later
grows.  On the code, `__len__` recomputes `len(dataset_one) +
len(dataset_two)` at every call: growing the first dataset from one to two
items changes the concatenation's length from 2 to 3. -/
theorem concat_len_not_fixed_counterexample :
    flen (growFirst (mkConcat sampleP sampleB1) [⟨Option.none, 12, 22⟩])
      ≠ flen (mkConcat sampleP sampleB1) := by
  decide

/-- C4 amended.  `len` of a concatenated view is live: after the wrapped
first Concrete Dataset grows by `new`, the concatenation's length grows by
`new.length`, while the stored transition point keeps its
construction-time value. -/
theorem concat_len_live (nm : String) (items new : List (RootflowDataItem D T))
    (dt1 : List (D → D)) (tt1 : List (T → T)) (b : FDataset D T) :
    flen (growFirst (mkConcat (.concrete nm items dt1 tt1) b) new)
      = flen (mkConcat (.concrete nm items dt1 tt1) b) + new.length ∧
    transitionPoint (growFirst (mkConcat (.concrete nm items dt1 tt1) b) new)
      = transitionPoint (mkConcat (.concrete nm items dt1 tt1) b) := by
  constructor
  · simp [growFirst, growConcrete, mkConcat, flen]
    omega
  · simp [growFirst, growConcrete, mkConcat, transitionPoint]

/-- C6.  `map` on a View raises (`AttributeError: "Cannot map over a dataset
view!"`) and on a Concatenated View raises (`AttributeError: "Cannot map
over concatenated datasets!"`), for data and target maps alike; the raise is
the method's first statement, so the error result carries no dataset and the
wrapped storage is untouched. -/
theorem map_view_unsupported (p : FDataset D T) (idxs : List Nat)
    (dt : List (D → D)) (tt : List (T → T)) (a b : FDataset D T) (tp : Nat)
    (dt2 : List (D → D)) (tt2 : List (T → T)) (f : D → D) (g : T → T) :
    mapData f (FDataset.view p idxs dt tt) = .error .attributeErrorView ∧
    mapTargets g (FDataset.view p idxs dt tt) = .error .attributeErrorView ∧
    mapData f (FDataset.concat a b tp dt2 tt2) = .error .attributeErrorConcat ∧
    mapTargets g (FDataset.concat a b tp dt2 tt2)
      = .error .attributeErrorConcat :=
  ⟨rfl, rfl, rfl, rfl⟩

/-- C7 (code bug).  The spec's collaborator contract requires `prepare_data`
to fail with a NotFound condition when no data exists at the root location.
`EmailCorpus.prepare_data` does raise, but `LabeledEmails.prepare_data`
executes `return FileNotFoundError`: it returns the exception class as a
normal value instead of raising, so the base-class protocol never sees the
NotFound condition (and would bind `self.data` to the class object). -/
theorem labeled_prepare_data_returns_not_raises :
    labeledEmailsPrepareData false [] = .ok .fileNotFoundClass ∧
    emailCorpusPrepareData false [] = .error .fileNotFound :=
  ⟨rfl, rfl⟩

/-- C8 (code bug).  `__getitem__` is an `if`/`elif`/`elif` chain with no
`else`: an item-access argument that is neither an integer, a slice, nor a
tuple/list of integers makes the method return Python `None` normally — no
`InvalidIndexType` (or any other) error is raised. -/
theorem getitem_invalid_type_returns_none (d : FDataset D T) :
    pyGetitem d IndexArg.other = GetitemResult.pyNone :=
  rfl

/-- C10.  Both `EmailCorpus.__init__` and `LabeledEmails.__init__` invoke
`super().__init__(root, download, tasks)` with three positional arguments
while `RootflowDataset.__init__(self, root=None, download=True)` accepts
two: the call raises `TypeError` at call time, with an empty action trace —
no load and no download is ever attempted, so neither concrete email dataset
is constructible through its public constructor. -/
theorem email_constructors_type_error {I : Type} (env : InitEnv I)
    (download : Bool) :
    emailCorpusConstruct env download = (.error .typeError, []) ∧
    labeledEmailsConstruct env download = (.error .typeError, []) :=
  ⟨rfl, rfl⟩

/-- C2.  For any dataset, non-negative proportion `p`, and seeded shuffle
that permutes `[0, n)` (the hypothesis satisfied by
`random.Random(seed).shuffle`): the test view's index sequence is exactly
the first `floor(n * p)` shuffled indices and the train view's the
remainder, both kept in shuffle order (constructed index-unsorted); the two
index sequences are disjoint and together a permutation of `[0, n)`.  The
model's shuffle is a pure function of the seed, so two calls with the same
seed are definitionally identical — recorded by the last conjunct. -/
theorem split_partition (shuffle : Nat → List Nat → List Nat) (seed : Nat)
    (p : ℚ) (d : FDataset D T) (hp : 0 ≤ p)
    (hperm : (shuffle seed (List.range (flen d))).Perm
      (List.range (flen d))) :
    viewIndices (splitDataset (shuffle seed) p d).2
      = (shuffle seed (List.range (flen d))).take
          (⌊(flen d : ℚ) * p⌋).toNat ∧
    viewIndices (splitDataset (shuffle seed) p d).1
      = (shuffle seed (List.range (flen d))).drop
          (⌊(flen d : ℚ) * p⌋).toNat ∧
    List.Disjoint (viewIndices (splitDataset (shuffle seed) p d).1)
      (viewIndices (splitDataset (shuffle seed) p d).2) ∧
    (viewIndices (splitDataset (shuffle seed) p d).1
        ++ viewIndices (splitDataset (shuffle seed) p d).2).Perm
      (List.range (flen d)) ∧
    splitDataset (shuffle seed) p d = splitDataset (shuffle seed) p d := by
  have hq : (0 : ℚ) ≤ (flen d : ℚ) * p :=
    mul_nonneg (Nat.cast_nonneg (flen d)) hp
  have hk : pyInt ((flen d : ℚ) * p) = ⌊(flen d : ℚ) * p⌋ := by
    rw [pyInt, if_neg (not_lt.mpr hq)]
  have hk0 : (0 : Int) ≤ ⌊(flen d : ℚ) * p⌋ := Int.floor_nonneg.mpr hq
  have hnd : (shuffle seed (List.range (flen d))).Nodup :=
    hperm.nodup_iff.mpr (List.nodup_range _)
  have htest : viewIndices (splitDataset (shuffle seed) p d).2
      = (shuffle seed (List.range (flen d))).take
        (⌊(flen d : ℚ) * p⌋).toNat := by
    rw [splitDataset]
    simp only [viewIndices_mkView]
    rw [hk, pySliceTo, if_neg (not_lt.mpr hk0)]
    exact dedupFirst_eq_self
      ((List.take_sublist _ _).nodup hnd)
  have htrain : viewIndices (splitDataset (shuffle seed) p d).1
      = (shuffle seed (List.range (flen d))).drop
        (⌊(flen d : ℚ) * p⌋).toNat := by
    rw [splitDataset]
    simp only [viewIndices_mkView]
    rw [hk, pySliceFrom, if_neg (not_lt.mpr hk0)]
    exact dedupFirst_eq_self
      ((List.drop_sublist _ _).nodup hnd)
  have hdisj : List.Disjoint
      (viewIndices (splitDataset (shuffle seed) p d).1)
      (viewIndices (splitDataset (shuffle seed) p d).2) := by
    rw [htrain, htest]
    intro a ha hb
    exact List.disjoint_take_drop hnd (le_refl _) hb ha
  refine ⟨htest, htrain, hdisj, ?_, rfl⟩
  rw [htrain, htest]
  have h1 : (List.drop (⌊(flen d : ℚ) * p⌋).toNat
        (shuffle seed (List.range (flen d)))
      ++ List.take (⌊(flen d : ℚ) * p⌋).toNat
        (shuffle seed (List.range (flen d)))).Perm
      (List.take (⌊(flen d : ℚ) * p⌋).toNat
        (shuffle seed (List.range (flen d)))
      ++ List.drop (⌊(flen d : ℚ) * p⌋).toNat
        (shuffle seed (List.range (flen d)))) := List.perm_append_comm
  refine h1.trans ?_
  rw [List.take_append_drop]
  exact hperm

/-- A deterministic stand-in for `random.Random(seed).shuffle` used by the
witness: it reverses its input (a permutation, for every seed). -/
def revShuffle (_seed : Nat) (l : List Nat) : List Nat := l.reverse

/-- Witness for C2 at a concrete input: two items, proportion `0`, the
reversing shuffle.  The train view keeps the shuffle order `[1, 0]` —
visibly unsorted — and the test view is empty. -/
theorem split_partition_witness :
    ((0 : ℚ) ≤ 0) ∧
    (revShuffle 7 (List.range (flen sampleA2))).Perm
      (List.range (flen sampleA2)) ∧
    viewIndices (splitDataset (revShuffle 7) 0 sampleA2).1 = [1, 0] ∧
    viewIndices (splitDataset (revShuffle 7) 0 sampleA2).2 = [] := by
  refine ⟨le_refl 0, by decide, ?_, ?_⟩
  · have h := (split_partition revShuffle 7 0 sampleA2 (le_refl 0)
      (by decide)).2.1
    simpa [revShuffle, sampleA2, flen, List.range_succ] using h
  · have h := (split_partition revShuffle 7 0 sampleA2 (le_refl 0)
      (by decide)).1
    simpa using h

theorem pySliceStart_nonneg (n : Nat) (st : Option Int) {s : Int}
    (hs : 0 < s) : 0 ≤ pySliceStart n st s := by
  have hns : ¬s < 0 := by omega
  cases st with
  | none => simp [pySliceStart, pySliceLower, hns]
  | some v =>
    simp only [pySliceStart, pyClamp, pySliceLower, pySliceUpper, hns,
      if_false]
    split_ifs <;> omega

/-- C5 counterexample.  The claim says `D[s]` keeps the index range in
ascending sorted order also for negative-step slices.  On the code the slice
branch of `__getitem__` constructs the view with `sorted=False`: `D[::-1]`
over three items yields the index sequence `[2, 1, 0]`, which is not
ascending. -/
theorem slice_negative_step_not_sorted :
    viewIndices (getitemSlice sampleD3 Option.none Option.none (some (-1)))
      = [2, 1, 0] ∧
    ¬List.Pairwise (fun a b => a ≤ b)
      (viewIndices
        (getitemSlice sampleD3 Option.none Option.none (some (-1)))) := by
  decide

/-- C5 amended.  For every slice the returned View's index sequence is the
slice's traversal order (first-occurrence deduplication is a no-op on it);
it is in ascending (strictly increasing) order exactly when the step is
positive or omitted — for a negative step it is the descending traversal
order, not re-sorted. -/
theorem slice_view_order (d : FDataset D T) (st sp ste : Option Int)
    (hs : 0 < pySliceStep ste) :
    viewIndices (getitemSlice d st sp ste)
      = (pySliceIndices (flen d) st sp ste).map Int.toNat ∧
    List.Pairwise (· < ·) (viewIndices (getitemSlice d st sp ste)) := by
  have hstart : 0 ≤ pySliceStart (flen d) st (pySliceStep ste) :=
    pySliceStart_nonneg (flen d) st hs
  have hpw : List.Pairwise (· < ·)
      ((pySliceIndices (flen d) st sp ste).map Int.toNat) := by
    rw [pySliceIndices, List.map_map, List.pairwise_map]
    refine (List.pairwise_lt_range _).imp ?_
    intro a b hab
    have h1 : pySliceStart (flen d) st (pySliceStep ste) + (a : Int)
        * pySliceStep ste
        < pySliceStart (flen d) st (pySliceStep ste) + (b : Int)
          * pySliceStep ste := by
      have hm : (a : Int) * pySliceStep ste < (b : Int) * pySliceStep ste :=
        mul_lt_mul_of_pos_right (by exact_mod_cast hab) hs
      omega
    have h2 : 0 ≤ pySliceStart (flen d) st (pySliceStep ste) + (a : Int)
        * pySliceStep ste := by
      have := mul_nonneg (Int.ofNat_nonneg a) (le_of_lt hs)
      omega
    simp only [Function.comp]
    omega
  have hnd : ((pySliceIndices (flen d) st sp ste).map Int.toNat).Nodup :=
    hpw.imp fun h => Nat.ne_of_lt h
  constructor
  · rw [getitemSlice, viewIndices_mkView, dedupFirst_eq_self hnd]
  · rw [getitemSlice, viewIndices_mkView, dedupFirst_eq_self hnd]
    exact hpw

/-- Witness for C5 (amended) at a concrete input: the full default slice
over three items yields `[0, 1, 2]`, in slice order and strictly
increasing. -/
theorem slice_view_order_witness :
    (0 < pySliceStep Option.none) ∧
    viewIndices (getitemSlice sampleD3 Option.none Option.none Option.none)
      = (pySliceIndices (flen sampleD3) Option.none Option.none
          Option.none).map Int.toNat ∧
    List.Pairwise (· < ·)
      (viewIndices
        (getitemSlice sampleD3 Option.none Option.none Option.none)) :=
  ⟨by decide,
   (slice_view_order sampleD3 Option.none Option.none Option.none
     (by decide)).1,
   (slice_view_order sampleD3 Option.none Option.none Option.none
     (by decide)).2⟩

/-- The function passed to `map(..., targets=True)` in the C9
counterexample: it replaces every target by a two-element sequence. -/
def tsMapFn : PyTarget → PyTarget := fun _ => PyTarget.seq [.int 0, .int 1]

/-- A one-item concrete dataset whose target is the empty sequence — the
sequence branch of `task_shapes` computes its length `0`, a falsy value. -/
def tsD0 : FDataset Nat PyTarget :=
  .concrete nmP [⟨Option.none, 0, PyTarget.seq []⟩] [] []

/-- `tsD0` after `map(tsMapFn, targets=True)`. -/
def tsD1 : FDataset Nat PyTarget :=
  .concrete nmP [⟨Option.none, 0, PyTarget.seq [.int 0, .int 1]⟩] [] []

/-- C9 counterexample.  The claim says the memoized `task_shapes` value is
immutable once populated, for every possible returned value.  On the code
the memoization guard is `if self._task_shapes:` — Python truthiness — so a
populated falsy value is recomputed on every call: a dataset whose target is
an empty sequence first returns shape `0`; after a `map` on targets changes
the item, the next call returns `2`, a different value. -/
theorem task_shapes_falsy_recomputed :
    taskShapesCall ShapeVal.noneV (readTargets tsD0)
      = .ok (ShapeVal.int 0, ShapeVal.int 0) ∧
    mapTargets tsMapFn tsD0 = .ok tsD1 ∧
    taskShapesCall (ShapeVal.int 0) (readTargets tsD1)
      = .ok (ShapeVal.int 2, ShapeVal.int 2) ∧
    ShapeVal.int 0 ≠ ShapeVal.int 2 := by
  refine ⟨rfl, rfl, rfl, ?_⟩
  intro h
  injection h with h'
  exact absurd h' (by decide)

/-- C9 amended.  Once `task_shapes` has computed and stored a truthy value
(a nonzero count or length, a nonempty shape tuple, a nonempty per-task
dict), every later call returns exactly that value and leaves the cache
unchanged, whatever the dataset's targets have become in between.  Falsy
populated values — the `None` sentinel, count/length `0`, an empty shape or
dict — are recomputed on every call. -/
theorem task_shapes_truthy_immutable (cache : ShapeVal)
    (targets : List PyTarget) (h : shapeTruthy cache = true) :
    taskShapesCall cache targets = .ok (cache, cache) := by
  rw [taskShapesCall, if_pos h]

/-- Witness for C9 (amended) at a concrete input: a cached count of `2` is
returned unchanged even against an empty target sequence. -/
theorem task_shapes_truthy_immutable_witness :
    shapeTruthy (ShapeVal.int 2) = true ∧
    taskShapesCall (ShapeVal.int 2) []
      = .ok (ShapeVal.int 2, ShapeVal.int 2) :=
  ⟨rfl, task_shapes_truthy_immutable (ShapeVal.int 2) [] rfl⟩

end Rootflow
